import Mathlib

/-!
Verification development for the json-server repository
(a REST API server generated from a single JSON document).

The first part embeds the startup code of `cmd/root.go`
(`getStorageResources`, `run`).  The second part embeds the resource
storage engine; its Go source is not part of the checked tree, so those
definitions are modelled from the specification (they carry doc comments
saying so) and checked against the behaviour pinned down by
`internal/handler/update_test.go`.
-/

/-- A JSON value as produced by Go's `encoding/json` when unmarshalling
into `map[string]interface{}`: `null` becomes a nil interface, booleans
`bool`, numbers `float64` (numeric semantics are irrelevant to every
claim, so numbers are carried as an opaque `Int` tag), strings `string`,
arrays `[]interface{}` and objects `map[string]interface{}`. -/
inductive JsonValue where
  | null : JsonValue
  | bool (b : Bool) : JsonValue
  | num (n : Int) : JsonValue
  | str (s : String) : JsonValue
  | arr (elems : List JsonValue) : JsonValue
  | obj (fields : List (String × JsonValue)) : JsonValue
deriving Repr

/-- Outcome of `cmd/root.go`'s `getStorageResources`.  `panicked` records
a Go runtime panic (nil pointer dereference). -/
inductive LoadResult where
  | fileNotFound : LoadResult
  | parseFailure : LoadResult
  | panicked : LoadResult
  | ok (keys : List (String × Bool)) : LoadResult
deriving Repr, DecidableEq

/-- The input to `getStorageResources`, abstracting `ioutil.ReadFile`
and `json.Unmarshal` (both Go standard library): `none` means the file
was unreadable, `some none` means the bytes did not parse as a JSON
object, `some (some content)` is the parsed top-level object. -/
abbrev FileInput : Type := Option (Option (List (String × JsonValue)))

/-- Embeds the body of the `switch reflect.TypeOf(data).Kind()` in
`getStorageResources` (root.go lines 158-163): a slice (JSON array)
stores `false` (plural), every other kind stores `true` (singular).
For a JSON null the interface is nil, `reflect.TypeOf` returns nil and
calling `.Kind()` on the nil interface panics: result `none`. -/
def classifyValue : JsonValue → Option Bool
  | JsonValue.null => none
  | JsonValue.arr _ => some false
  | _ => some true

/-- The `for resource, data := range content` loop of
`getStorageResources`: classify every key, propagating a panic. -/
def classifyKeys : List (String × JsonValue) → Option (List (String × Bool))
  | [] => some []
  | (k, v) :: rest =>
    match classifyValue v with
    | none => none
    | some b => (classifyKeys rest).map (fun tl => (k, b) :: tl)

/-- Embeds `getStorageResources` (root.go lines 142-167): unreadable
file yields the file-not-found error, unparsable content the
parse-file error, otherwise each top-level key is classified. -/
def getStorageResources (file : FileInput) : LoadResult :=
  match file with
  | none => LoadResult.fileNotFound
  | some none => LoadResult.parseFailure
  | some (some content) =>
    match classifyKeys content with
    | none => LoadResult.panicked
    | some keys => LoadResult.ok keys

/-- The distinct package-level error values of `cmd/root.go` lines
36-41 (`errors.New` creates pairwise distinct values; `run` wraps the
flag error with the flag name and `getStorageResources` wraps the file
errors with the filename). -/
inductive RunError where
  | failedParseFlag (which : String) : RunError
  | fileNotFound (filename : String) : RunError
  | failedParseFile (filename : String) : RunError
  | failedStartServer : RunError
  | setupError : RunError
deriving Repr, DecidableEq

/-- Result of `run`: normal return, an error return, or a panic
propagated out of `getStorageResources`. -/
inductive RunOutcome where
  | ok : RunOutcome
  | err (e : RunError) : RunOutcome
  | panicked : RunOutcome
deriving Repr, DecidableEq

/-- The external collaborators `run` consults, abstracted: the three
flag lookups (`none` = `cmd.Flags().Get*` fails), the backing file, the
result of `handler.Setup`, and whether `net.Listen` succeeds. -/
structure RunInput where
  portFlag : Option String
  fileFlag : Option String
  logsFlag : Option Bool
  fileContent : FileInput
  setupOk : Bool
  listenOk : Bool

/-- Embeds `run` (root.go lines 60-117).  The returned `Bool` records
whether `go api.Serve(listener)` was reached.  Steps in source order:
parse the port, file and logs flags, load the storage resources, set up
the handler, bind the TCP listener, and only then start serving. -/
def run (inp : RunInput) : RunOutcome × Bool :=
  match inp.portFlag with
  | none => (RunOutcome.err (RunError.failedParseFlag "port"), false)
  | some _ =>
    match inp.fileFlag with
    | none => (RunOutcome.err (RunError.failedParseFlag "file"), false)
    | some file =>
      match inp.logsFlag with
      | none => (RunOutcome.err (RunError.failedParseFlag "logs"), false)
      | some _ =>
        match getStorageResources inp.fileContent with
        | LoadResult.fileNotFound => (RunOutcome.err (RunError.fileNotFound file), false)
        | LoadResult.parseFailure => (RunOutcome.err (RunError.failedParseFile file), false)
        | LoadResult.panicked => (RunOutcome.panicked, false)
        | LoadResult.ok _ =>
          if inp.setupOk then
            if inp.listenOk then (RunOutcome.ok, true)
            else (RunOutcome.err RunError.failedStartServer, false)
          else (RunOutcome.err RunError.setupError, false)

/-! ## The resource storage engine

The Go source of the storage engine (`internal/storage`, the handler
bodies) is not part of the checked tree — only its test
`internal/handler/update_test.go` is.  The definitions below are
therefore modelled from the specification and checked against the
behaviour that test pins down. -/

/-- A Resource: a mapping from field name to JSON value, as in
`storage.Resource` (`map[string]interface{}` in Go), rendered as an
association list whose lookup takes the first matching key. -/
abbrev Resource : Type := List (String × JsonValue)

/-- First-match field lookup on a Resource. -/
def rLookup (r : Resource) (k : String) : Option JsonValue :=
  (r.find? (fun p => p.1 == k)).map Prod.snd

/-- Whether a Resource carries a field named `k`. -/
def hasKey (r : Resource) (k : String) : Bool :=
  (r.find? (fun p => p.1 == k)).isSome

/-- The identifier of a Resource: the value of the `id` field when that
value is a JSON string, and `none` otherwise. -/
def idOf (r : Resource) : Option String :=
  match rLookup r "id" with
  | some (JsonValue.str s) => some s
  | _ => none

/-- The resource of a collection carrying the given id (first match). -/
def findResource (col : List Resource) (id : String) : Option Resource :=
  col.find? (fun r => idOf r == some id)

/-- The string ids already in use within a collection. -/
def usedIds (col : List Resource) : List String :=
  col.filterMap idOf

/-- Modelled from the spec: a patch body that is empty or whose only
key is `id` carries zero effective field updates (§4.3: such a body
"must be rejected as BadRequest"). -/
def isNoOpPatch (body : Resource) : Bool :=
  body.all (fun p => p.1 == "id")

/-- Modelled from the spec: the left-biased merge of §8,
`{**r, **body}` — fields in `body` overwrite, fields of `r` absent
from `body` are preserved. -/
def mergeResource (r body : Resource) : Resource :=
  body ++ r.filter (fun p => !(hasKey body p.1))

/-- Modelled from the spec (§4.2): the existing identifier is
"re-attached to the stored result unconditionally" — any `id` field of
`r` is discarded and the field `id = s` is attached. -/
def withId (r : Resource) (s : String) : Resource :=
  ("id", JsonValue.str s) :: r.filter (fun p => !(p.1 == "id"))

/-- Replace, within a collection, the resource(s) carrying id `id` with
`u`, leaving every other resource untouched. -/
def replaceInCol (col : List Resource) (id : String) (u : Resource) : List Resource :=
  col.map (fun r => if idOf r == some id then u else r)

/-- Concatenation of a list of strings (helper for `freshId`). -/
def concatIds : List String → String
  | [] => ""
  | s :: rest => s ++ concatIds rest

/-- Modelled from the spec (§4.2): the generator of "a new unique
string identifier" whose Go implementation (a random/monotonic source
re-checked for collisions) is not in the checked tree.  This model
concatenates every used id and appends one more character, which is
longer than — hence different from — every used id. -/
def freshId (used : List String) : String :=
  concatIds used ++ "x"

/-- The two request-level error kinds of the storage engine
(`storage.ErrBadRequest`, `storage.ErrResourceNotFound`). -/
inductive StorageError where
  | badRequest : StorageError
  | resourceNotFound : StorageError
deriving Repr, DecidableEq

/-- The HTTP status the caller-facing layer maps a storage error to
(§6: 400 for BadRequest, 404 for NotFound). -/
def statusOf : StorageError → Nat
  | StorageError.badRequest => 400
  | StorageError.resourceNotFound => 404

/-- Modelled from the spec (§4.3 Get): the resource matching the id,
NotFound when absent. -/
def getOp (col : List Resource) (id : String) : Except StorageError Resource :=
  match findResource col id with
  | none => Except.error StorageError.resourceNotFound
  | some r => Except.ok r

/-- Modelled from the spec (§4.2, §4.3 Create): if the body supplies a
string `id` not already used in the collection it is honored, otherwise
(missing, wrong type, or colliding) a fresh unique id is generated; the
new resource is appended to the collection and returned. -/
def resolvedCreateId (col : List Resource) (body : Resource) : String :=
  match rLookup body "id" with
  | some (JsonValue.str s) => if (usedIds col).contains s then freshId (usedIds col) else s
  | _ => freshId (usedIds col)

/-- Modelled from the spec (§4.3 Create): the new resource — the body
with the resolved id attached — is appended to the collection and
returned. -/
def createOp (col : List Resource) (body : Resource) : List Resource × Resource :=
  let newR := withId body (resolvedCreateId col body)
  (col ++ [newR], newR)

/-- Modelled from the spec (§4.3 Replace): the existing resource is
fully replaced by the body with its id re-attached; an absent id is
NotFound, an empty body BadRequest. -/
def replaceOp (col : List Resource) (id : String) (body : Resource) :
    Except StorageError (List Resource × Resource) :=
  match findResource col id with
  | none => Except.error StorageError.resourceNotFound
  | some _ =>
    if body.isEmpty then Except.error StorageError.badRequest
    else
      let u := withId body id
      Except.ok (replaceInCol col id u, u)

/-- Modelled from the spec (§4.3 Patch): the existing resource is
merged field-by-field with the body and its id re-attached; an absent
id is NotFound, a body with no effective updates BadRequest. -/
def patchOp (col : List Resource) (id : String) (body : Resource) :
    Except StorageError (List Resource × Resource) :=
  match findResource col id with
  | none => Except.error StorageError.resourceNotFound
  | some r =>
    if isNoOpPatch body then Except.error StorageError.badRequest
    else
      let u := withId (mergeResource r body) id
      Except.ok (replaceInCol col id u, u)

/-- Modelled from the spec (§4.3 Delete): the resource is removed from
the collection; an absent id is NotFound. -/
def deleteOp (col : List Resource) (id : String) : Except StorageError (List Resource) :=
  match findResource col id with
  | none => Except.error StorageError.resourceNotFound
  | some _ => Except.ok (col.filter (fun r => !(idOf r == some id)))

/-- A top-level value of the Document: a Collection for a JSON array,
a Singleton for everything else (§3). -/
inductive DocValue where
  | collection (resources : List Resource) : DocValue
  | singleton (v : JsonValue) : DocValue

/-- The Document: mapping from top-level key to Collection or
Singleton (§3). -/
abbrev Document : Type := List (String × DocValue)

/-- Key lookup in a Document. -/
def docLookup (doc : Document) (key : String) : Option DocValue :=
  (doc.find? (fun p => p.1 == key)).map Prod.snd

/-- Store a new value under an existing key of a Document. -/
def docSet (doc : Document) (key : String) (v : DocValue) : Document :=
  doc.map (fun p => if p.1 == key then (p.1, v) else p)

/-- Modelled from the spec (§4.1 `load`): each element of a JSON array
becomes one Resource (its object fields); the spec prescribes no
validation of the elements beyond parsing. -/
def toResource : JsonValue → Resource
  | JsonValue.obj fields => fields
  | _ => []

/-- Modelled from the spec (§4.1 `load`): a JSON array is classified
as a Collection, every other value as a Singleton. -/
def loadDocValue : JsonValue → DocValue
  | JsonValue.arr elems => DocValue.collection (elems.map toResource)
  | v => DocValue.singleton v

/-- Modelled from the spec (§4.1 `load`): build the Document from the
parsed top-level object.  No id-uniqueness check is specified at load
time. -/
def loadDocument (content : List (String × JsonValue)) : Document :=
  content.map (fun p => (p.1, loadDocValue p.2))

/-- A mutating operation addressed to the Document. -/
inductive Op where
  | create (key : String) (body : Resource) : Op
  | replace (key : String) (id : String) (body : Resource) : Op
  | patch (key : String) (id : String) (body : Resource) : Op
  | delete (key : String) (id : String) : Op

/-- Modelled from the spec (§4.3): dispatch one mutating operation to
the collection stored under its key (an unknown key, or a key holding
a Singleton — for which no mutating route exists — is NotFound).
Returns the new Document and the resource to return, when any. -/
def applyOp (doc : Document) : Op → Except StorageError (Document × Option Resource)
  | Op.create key body =>
    match docLookup doc key with
    | some (DocValue.collection col) =>
      let res := createOp col body
      Except.ok (docSet doc key (DocValue.collection res.1), some res.2)
    | _ => Except.error StorageError.resourceNotFound
  | Op.replace key id body =>
    match docLookup doc key with
    | some (DocValue.collection col) =>
      match replaceOp col id body with
      | Except.error e => Except.error e
      | Except.ok res => Except.ok (docSet doc key (DocValue.collection res.1), some res.2)
    | _ => Except.error StorageError.resourceNotFound
  | Op.patch key id body =>
    match docLookup doc key with
    | some (DocValue.collection col) =>
      match patchOp col id body with
      | Except.error e => Except.error e
      | Except.ok res => Except.ok (docSet doc key (DocValue.collection res.1), some res.2)
    | _ => Except.error StorageError.resourceNotFound
  | Op.delete key id =>
    match docLookup doc key with
    | some (DocValue.collection col) =>
      match deleteOp col id with
      | Except.error e => Except.error e
      | Except.ok col2 => Except.ok (docSet doc key (DocValue.collection col2), none)
    | _ => Except.error StorageError.resourceNotFound

/-- The server's shared state: the in-memory Document and the Document
whose serialization the backing file currently holds (serialization is
modelled as the identity on Documents). -/
structure ServerState where
  doc : Document
  file : Document

/-- Modelled from the spec (§4.4 Persistence Sync): apply one mutating
operation; on success the full Document is serialized to the backing
file before the result is returned, on failure nothing changes. -/
def runMutation (s : ServerState) (op : Op) :
    ServerState × Except StorageError (Option Resource) :=
  match applyOp s.doc op with
  | Except.error e => (s, Except.error e)
  | Except.ok res => (ServerState.mk res.1 res.1, Except.ok res.2)

/-- Per-collection id uniqueness (§3): no two resources of the
collection share an id value. -/
def uniqueIds (col : List Resource) : Prop :=
  (usedIds col).Nodup

instance (col : List Resource) : Decidable (uniqueIds col) :=
  List.nodupDecidable (usedIds col)

/-! ## Lookup and merge lemmas -/

theorem find?_filter_of_imp {α : Type} (p q : α → Bool) (l : List α)
    (h : ∀ a, p a = true → q a = true) : (l.filter q).find? p = l.find? p := by
  induction l with
  | nil => rfl
  | cons a t ih =>
    by_cases hq : q a = true
    · simp only [List.filter_cons, hq, if_pos]
      rw [List.find?_cons, List.find?_cons]
      cases hp : p a <;> simp [ih]
    · have hp : p a = false := by
        cases hpa : p a
        · rfl
        · exact absurd (h a hpa) hq
      simp only [List.filter_cons, hq, if_neg, Bool.false_eq_true, not_false_iff, ite_false]
      rw [List.find?_cons, hp, ih]

theorem find?_filter_not {α : Type} (p : α → Bool) (l : List α) :
    (l.filter (fun a => !(p a))).find? p = none := by
  induction l with
  | nil => rfl
  | cons a t ih =>
    cases hp : p a
    · simp only [List.filter_cons, hp, Bool.not_false, if_pos, List.find?_cons, ih]
    · simp only [List.filter_cons, hp, Bool.not_true, Bool.false_eq_true, not_false_iff,
        ite_false, ih]

theorem rLookup_merge_of_hasKey (r body : Resource) (k : String)
    (h : hasKey body k = true) : rLookup (mergeResource r body) k = rLookup body k := by
  unfold rLookup mergeResource
  rw [List.find?_append]
  unfold hasKey at h
  cases hfind : body.find? (fun p => p.1 == k) with
  | none => rw [hfind] at h; simp at h
  | some e => simp [Option.or]

theorem rLookup_merge_of_not_hasKey (r body : Resource) (k : String)
    (h : hasKey body k = false) : rLookup (mergeResource r body) k = rLookup r k := by
  unfold rLookup mergeResource
  rw [List.find?_append]
  unfold hasKey at h
  cases hfind : body.find? (fun p => p.1 == k) with
  | some e => rw [hfind] at h; simp at h
  | none =>
    simp only [Option.or]
    rw [find?_filter_of_imp]
    intro a ha
    have hak : a.1 = k := by
      have := of_decide_eq_true (by simpa using ha)
      simpa using ha
    by_cases hb : hasKey body a.1 = true
    · rw [hak] at hb
      unfold hasKey at hb
      rw [hfind] at hb
      simp at hb
    · simp [hb]

theorem rLookup_withId_id (r : Resource) (s : String) :
    rLookup (withId r s) "id" = some (JsonValue.str s) := by
  unfold rLookup withId
  rw [List.find?_cons]
  simp

theorem idOf_withId (r : Resource) (s : String) : idOf (withId r s) = some s := by
  unfold idOf
  rw [rLookup_withId_id]

theorem rLookup_withId_ne (r : Resource) (s k : String) (h : k ≠ "id") :
    rLookup (withId r s) k = rLookup r k := by
  unfold rLookup withId
  rw [List.find?_cons]
  have hk : (("id", JsonValue.str s).1 == k) = false := by
    simp only [beq_eq_false_iff_ne, ne_eq]
    exact fun hc => h hc.symm
  rw [hk]
  rw [find?_filter_of_imp]
  intro a ha
  have hak : a.1 = k := by simpa using ha
  simp [hak, h]

/-! ## Collection lemmas -/

theorem findResource_id (col : List Resource) (id : String) (r : Resource)
    (h : findResource col id = some r) : idOf r = some id := by
  have := List.find?_some h
  simpa using this

theorem findResource_replaceInCol (col : List Resource) (id : String) (r u : Resource)
    (h : findResource col id = some r) (hu : idOf u = some id) :
    findResource (replaceInCol col id u) id = some u := by
  induction col with
  | nil => simp [findResource] at h
  | cons a t ih =>
    unfold findResource replaceInCol at *
    rw [List.find?_cons] at h
    cases ha : (idOf a == some id) with
    | true =>
      simp only [List.map_cons, ha, if_pos, List.find?_cons]
      have : (idOf u == some id) = true := by simp [hu]
      rw [this]
    | false =>
      rw [ha] at h
      simp only [List.map_cons, ha, Bool.false_eq_true, if_neg, not_false_iff, ite_false,
        List.find?_cons]
      exact ih h

theorem usedIds_replaceInCol (col : List Resource) (id : String) (u : Resource)
    (hu : idOf u = some id) : usedIds (replaceInCol col id u) = usedIds col := by
  unfold usedIds replaceInCol
  rw [List.filterMap_map]
  apply List.filterMap_congr
  intro r _
  simp only [Function.comp]
  by_cases hr : (idOf r == some id) = true
  · have : idOf r = some id := by simpa using hr
    simp [hr, hu, this]
  · simp [hr]

theorem usedIds_append (col col2 : List Resource) :
    usedIds (col ++ col2) = usedIds col ++ usedIds col2 := by
  unfold usedIds
  rw [List.filterMap_append]

theorem usedIds_delete_sublist (col : List Resource) (p : Resource → Bool) :
    (usedIds (col.filter p)).Sublist (usedIds col) :=
  List.Sublist.filterMap idOf (List.filter_sublist col)

theorem concatIds_length_le (used : List String) (s : String) (h : s ∈ used) :
    s.length ≤ (concatIds used).length := by
  induction used with
  | nil => cases h
  | cons a t ih =>
    unfold concatIds
    rw [String.length_append]
    rcases List.mem_cons.mp h with rfl | ht
    · omega
    · have := ih ht
      omega

theorem freshId_not_mem (used : List String) : freshId used ∉ used := by
  intro hmem
  have hle := concatIds_length_le used _ hmem
  unfold freshId at hle
  rw [String.length_append] at hle
  have : (1 : Nat) ≤ 0 := by
    have hx : ("x" : String).length = 1 := rfl
    omega
  omega

/-! ## Inversion lemmas for the mutating operations -/

theorem patchOp_ok_inv (col : List Resource) (id : String) (body : Resource)
    (col2 : List Resource) (u : Resource) (h : patchOp col id body = Except.ok (col2, u)) :
    ∃ r, findResource col id = some r ∧ isNoOpPatch body = false ∧
      u = withId (mergeResource r body) id ∧ col2 = replaceInCol col id u := by
  unfold patchOp at h
  cases hf : findResource col id with
  | none => rw [hf] at h; exact absurd h (by simp)
  | some r =>
    rw [hf] at h
    cases hno : isNoOpPatch body with
    | true => rw [hno] at h; simp at h
    | false =>
      rw [hno] at h
      simp only [ite_false, Bool.false_eq_true, if_neg, not_false_iff] at h
      refine ⟨r, rfl, rfl, ?_, ?_⟩
      · exact (Prod.mk.injEq _ _ _ _ ▸ (Except.ok.injEq _ _ ▸ h)).2.symm
      · have := (Prod.mk.injEq _ _ _ _ ▸ (Except.ok.injEq _ _ ▸ h)).1
        have h2 := (Prod.mk.injEq _ _ _ _ ▸ (Except.ok.injEq _ _ ▸ h)).2
        rw [← this, h2]

theorem replaceOp_ok_inv (col : List Resource) (id : String) (body : Resource)
    (col2 : List Resource) (u : Resource) (h : replaceOp col id body = Except.ok (col2, u)) :
    ∃ r, findResource col id = some r ∧ body.isEmpty = false ∧
      u = withId body id ∧ col2 = replaceInCol col id u := by
  unfold replaceOp at h
  cases hf : findResource col id with
  | none => rw [hf] at h; exact absurd h (by simp)
  | some r =>
    rw [hf] at h
    cases he : body.isEmpty with
    | true => rw [he] at h; simp at h
    | false =>
      rw [he] at h
      simp only [ite_false, Bool.false_eq_true, if_neg, not_false_iff] at h
      have h1 := (Prod.mk.injEq _ _ _ _ ▸ (Except.ok.injEq _ _ ▸ h)).1
      have h2 := (Prod.mk.injEq _ _ _ _ ▸ (Except.ok.injEq _ _ ▸ h)).2
      exact ⟨r, rfl, rfl, h2.symm, by rw [← h1, h2]⟩

theorem deleteOp_ok_inv (col : List Resource) (id : String) (col2 : List Resource)
    (h : deleteOp col id = Except.ok col2) :
    ∃ r, findResource col id = some r ∧
      col2 = col.filter (fun r => !(idOf r == some id)) := by
  unfold deleteOp at h
  cases hf : findResource col id with
  | none => rw [hf] at h; exact absurd h (by simp)
  | some r =>
    rw [hf] at h
    exact ⟨r, rfl, (Except.ok.injEq _ _ ▸ h).symm⟩

/-! ## Uniqueness preservation lemmas -/

theorem usedIds_singleton (r : Resource) (g : String) (h : idOf r = some g) :
    usedIds [r] = [g] := by
  unfold usedIds
  simp [List.filterMap, h]

theorem uniqueIds_append_fresh (col : List Resource) (newR : Resource) (g : String)
    (h : uniqueIds col) (hid : idOf newR = some g) (hg : g ∉ usedIds col) :
    uniqueIds (col ++ [newR]) := by
  unfold uniqueIds
  rw [usedIds_append, usedIds_singleton newR g hid]
  rw [List.nodup_append]
  refine ⟨h, List.nodup_singleton g, ?_⟩
  intro x hx hx2
  rw [List.mem_singleton] at hx2
  exact hg (hx2 ▸ hx)

theorem uniqueIds_replaceInCol (col : List Resource) (id : String) (u : Resource)
    (h : uniqueIds col) (hu : idOf u = some id) :
    uniqueIds (replaceInCol col id u) := by
  unfold uniqueIds
  rw [usedIds_replaceInCol col id u hu]
  exact h

theorem uniqueIds_filter (col : List Resource) (p : Resource → Bool)
    (h : uniqueIds col) : uniqueIds (col.filter p) :=
  List.Nodup.sublist (usedIds_delete_sublist col p) h

/-! ## Claim theorems -/

/-- C5: the claim states that `getStorageResources` never panics and, on
a successful parse, classifies every top-level key, including keys whose
value is JSON null.  The unreadable-file and unparsable-content branches
do return the dedicated errors, but a key whose value is JSON null makes
the Go code call `.Kind()` on the nil `reflect.Type`, a runtime panic:
at file content `{"a": null}` the embedded code panics instead of
succeeding. -/
theorem getStorageResources_panics_on_null :
    getStorageResources none = LoadResult.fileNotFound ∧
    getStorageResources (some none) = LoadResult.parseFailure ∧
    getStorageResources (some (some [("a", JsonValue.null)])) = LoadResult.panicked := by
  exact ⟨rfl, rfl, rfl⟩

/-- C6: the claim states that every top-level key is classified —
Collection exactly for arrays, Singleton in every other case.  Array and
non-array non-null values are indeed classified that way (`false` =
plural/Collection, `true` = singular/Singleton), but a null value, which
falls under "every other case", receives no classification at all: the
loop panics. -/
theorem classification_misses_null :
    getStorageResources (some (some [("users", JsonValue.arr []),
      ("admin", JsonValue.obj [("name", JsonValue.str "a")])])) =
      LoadResult.ok [("users", false), ("admin", true)] ∧
    classifyValue (JsonValue.bool true) = some true ∧
    classifyValue (JsonValue.str "s") = some true ∧
    classifyValue (JsonValue.num 0) = some true ∧
    getStorageResources (some (some [("config", JsonValue.null)])) = LoadResult.panicked := by
  exact ⟨rfl, rfl, rfl, rfl, rfl⟩

/-- C10: when the three flags parse, the backing file loads, and the
handler sets up, but binding the TCP listener fails, `run` returns the
dedicated failed-to-start error, serving never begins, and that error is
distinct from the flag-parse, file-not-found and file-parse errors. -/
theorem run_listen_failure (inp : RunInput) (p f : String) (l : Bool)
    (keys : List (String × Bool))
    (hp : inp.portFlag = some p) (hf : inp.fileFlag = some f)
    (hl : inp.logsFlag = some l)
    (hload : getStorageResources inp.fileContent = LoadResult.ok keys)
    (hsetup : inp.setupOk = true) (hlisten : inp.listenOk = false) :
    run inp = (RunOutcome.err RunError.failedStartServer, false) ∧
    (∀ w, RunError.failedStartServer ≠ RunError.failedParseFlag w) ∧
    (∀ fn, RunError.failedStartServer ≠ RunError.fileNotFound fn) ∧
    (∀ fn, RunError.failedStartServer ≠ RunError.failedParseFile fn) := by
  refine ⟨?_, ?_, ?_, ?_⟩
  · unfold run
    rw [hp, hf, hl, hload, hsetup, hlisten]
    simp
  · intro w h; cases h
  · intro fn h; cases h
  · intro fn h; cases h

/-- Witness for C10 at a concrete input: a readable one-key file,
working flags and handler, failed listener bind. -/
theorem run_listen_failure_witness :
    run (RunInput.mk (some "3000") (some "db.json") (some false)
      (some (some [("books", JsonValue.arr [])])) true false) =
      (RunOutcome.err RunError.failedStartServer, false) :=
  (run_listen_failure
    (RunInput.mk (some "3000") (some "db.json") (some false)
      (some (some [("books", JsonValue.arr [])])) true false)
    "3000" "db.json" false [("books", false)] rfl rfl rfl rfl rfl rfl).1

theorem contains_eq_false_iff (l : List String) (a : String) :
    l.contains a = false ↔ a ∉ l := by
  simp

theorem resolvedCreateId_honored (col : List Resource) (body : Resource) (s : String)
    (hs : rLookup body "id" = some (JsonValue.str s)) (hns : s ∉ usedIds col) :
    resolvedCreateId col body = s := by
  unfold resolvedCreateId
  rw [hs]
  show (if (usedIds col).contains s = true then freshId (usedIds col) else s) = s
  rw [(contains_eq_false_iff (usedIds col) s).mpr hns]
  simp

theorem resolvedCreateId_not_mem (col : List Resource) (body : Resource) :
    resolvedCreateId col body ∉ usedIds col := by
  unfold resolvedCreateId
  cases hv : rLookup body "id" with
  | none => exact freshId_not_mem (usedIds col)
  | some v =>
    cases v with
    | str s =>
      show (if (usedIds col).contains s = true then freshId (usedIds col) else s) ∉ usedIds col
      by_cases hc : (usedIds col).contains s = true
      · rw [if_pos hc]
        exact freshId_not_mem (usedIds col)
      · rw [if_neg hc]
        exact (contains_eq_false_iff (usedIds col) s).mp (Bool.not_eq_true _ ▸ eq_false_of_ne_true hc)
    | null => exact freshId_not_mem (usedIds col)
    | bool b => exact freshId_not_mem (usedIds col)
    | num n => exact freshId_not_mem (usedIds col)
    | arr elems => exact freshId_not_mem (usedIds col)
    | obj fields => exact freshId_not_mem (usedIds col)

/-- C1: for any collection key and any existing resource id, a Patch
whose body is empty or whose every key is `id` (any value) is rejected
with BadRequest (mapped to HTTP 400) and the server state — the stored
Document and the backing file — is left completely unchanged. -/
theorem patch_noop_rejected (s : ServerState) (key id : String)
    (col : List Resource) (r body : Resource)
    (hcol : docLookup s.doc key = some (DocValue.collection col))
    (hfind : findResource col id = some r)
    (hbody : body = [] ∨ ∀ p ∈ body, p.1 = "id") :
    runMutation s (Op.patch key id body) = (s, Except.error StorageError.badRequest) ∧
    statusOf StorageError.badRequest = 400 := by
  have hno : isNoOpPatch body = true := by
    unfold isNoOpPatch
    rcases hbody with rfl | hall
    · rfl
    · rw [List.all_eq_true]
      intro p hp
      simp [hall p hp]
  refine ⟨?_, rfl⟩
  have hpatch : patchOp col id body = Except.error StorageError.badRequest := by
    unfold patchOp
    rw [hfind, hno]
    rfl
  have happ : applyOp s.doc (Op.patch key id body) = Except.error StorageError.badRequest := by
    simp [applyOp, hcol, hpatch]
  unfold runMutation
  rw [happ]

/-- Witness for C1: patching the resource of id "1" with the body
`{"id": "7"}` is rejected and changes nothing. -/
theorem patch_noop_rejected_witness :
    runMutation
      (ServerState.mk [("books", DocValue.collection [[("id", JsonValue.str "1")]])]
        [("books", DocValue.collection [[("id", JsonValue.str "1")]])])
      (Op.patch "books" "1" [("id", JsonValue.str "7")]) =
      (ServerState.mk [("books", DocValue.collection [[("id", JsonValue.str "1")]])]
        [("books", DocValue.collection [[("id", JsonValue.str "1")]])],
       Except.error StorageError.badRequest) :=
  (patch_noop_rejected
    (ServerState.mk [("books", DocValue.collection [[("id", JsonValue.str "1")]])]
      [("books", DocValue.collection [[("id", JsonValue.str "1")]])])
    "books" "1" [[("id", JsonValue.str "1")]]
    [("id", JsonValue.str "1")] [("id", JsonValue.str "7")] rfl rfl
    (Or.inr (by intro p hp; rcases List.mem_singleton.mp hp with rfl; rfl))).1

/-- C2: for an existing resource `r` and a body that is non-empty and
not only the `id` field, Patch stores the left-biased merge: the stored
resource takes the body's value on every non-id field present in the
body, keeps `r`'s value on every non-id field absent from the body, and
carries `r`'s original id whatever the body contains. -/
theorem patch_left_biased_merge (col : List Resource) (id : String) (r body : Resource)
    (hfind : findResource col id = some r)
    (hbody : isNoOpPatch body = false) :
    ∃ u, patchOp col id body = Except.ok (replaceInCol col id u, u) ∧
      idOf r = some id ∧
      rLookup u "id" = some (JsonValue.str id) ∧
      (∀ k, k ≠ "id" → hasKey body k = true → rLookup u k = rLookup body k) ∧
      (∀ k, k ≠ "id" → hasKey body k = false → rLookup u k = rLookup r k) := by
  refine ⟨withId (mergeResource r body) id, ?_, findResource_id col id r hfind, ?_, ?_, ?_⟩
  · unfold patchOp
    rw [hfind, hbody]
    rfl
  · exact rLookup_withId_id _ id
  · intro k hk hbk
    rw [rLookup_withId_ne _ id k hk]
    exact rLookup_merge_of_hasKey r body k hbk
  · intro k hk hbk
    rw [rLookup_withId_ne _ id k hk]
    exact rLookup_merge_of_not_hasKey r body k hbk

/-- Witness for C2: patching `{"id":"1","title":"A"}` with
`{"title":"B"}` in a one-resource collection. -/
theorem patch_left_biased_merge_witness :
    ∃ u, patchOp [[("id", JsonValue.str "1"), ("title", JsonValue.str "A")]] "1"
        [("title", JsonValue.str "B")] =
        Except.ok (replaceInCol [[("id", JsonValue.str "1"), ("title", JsonValue.str "A")]]
          "1" u, u) ∧
      idOf [("id", JsonValue.str "1"), ("title", JsonValue.str "A")] = some "1" ∧
      rLookup u "id" = some (JsonValue.str "1") ∧
      (∀ k, k ≠ "id" → hasKey [("title", JsonValue.str "B")] k = true →
        rLookup u k = rLookup [("title", JsonValue.str "B")] k) ∧
      (∀ k, k ≠ "id" → hasKey [("title", JsonValue.str "B")] k = false →
        rLookup u k = rLookup [("id", JsonValue.str "1"), ("title", JsonValue.str "A")] k) :=
  patch_left_biased_merge [[("id", JsonValue.str "1"), ("title", JsonValue.str "A")]] "1"
    [("id", JsonValue.str "1"), ("title", JsonValue.str "A")]
    [("title", JsonValue.str "B")] rfl rfl

/-- C3: on an existing resource, both Replace and Patch discard any
`id` value of the incoming body: the stored result carries the original
id, and stays resolvable (by Get) under the original id. -/
theorem update_preserves_id (col : List Resource) (id : String) (r body : Resource)
    (hfind : findResource col id = some r) :
    (body.isEmpty = false →
      ∃ u, replaceOp col id body = Except.ok (replaceInCol col id u, u) ∧
        rLookup u "id" = some (JsonValue.str id) ∧ idOf u = some id ∧
        getOp (replaceInCol col id u) id = Except.ok u) ∧
    (isNoOpPatch body = false →
      ∃ u, patchOp col id body = Except.ok (replaceInCol col id u, u) ∧
        rLookup u "id" = some (JsonValue.str id) ∧ idOf u = some id ∧
        getOp (replaceInCol col id u) id = Except.ok u) := by
  constructor
  · intro hne
    refine ⟨withId body id, ?_, rLookup_withId_id _ id, idOf_withId _ id, ?_⟩
    · unfold replaceOp
      rw [hfind, hne]
      rfl
    · unfold getOp
      rw [findResource_replaceInCol col id r _ hfind (idOf_withId _ id)]
  · intro hno
    refine ⟨withId (mergeResource r body) id, ?_, rLookup_withId_id _ id,
      idOf_withId _ id, ?_⟩
    · unfold patchOp
      rw [hfind, hno]
      rfl
    · unfold getOp
      rw [findResource_replaceInCol col id r _ hfind (idOf_withId _ id)]

/-- Witness for C3: replacing and patching resource "1" with a body
carrying the different id "2020"; the stored id stays "1". -/
theorem update_preserves_id_witness :
    (∃ u, replaceOp [[("id", JsonValue.str "1"), ("title", JsonValue.str "A")]] "1"
        [("id", JsonValue.str "2020"), ("field_2", JsonValue.str "u")] =
        Except.ok (replaceInCol [[("id", JsonValue.str "1"), ("title", JsonValue.str "A")]]
          "1" u, u) ∧
      rLookup u "id" = some (JsonValue.str "1") ∧ idOf u = some "1" ∧
      getOp (replaceInCol [[("id", JsonValue.str "1"), ("title", JsonValue.str "A")]]
        "1" u) "1" = Except.ok u) ∧
    (∃ u, patchOp [[("id", JsonValue.str "1"), ("title", JsonValue.str "A")]] "1"
        [("id", JsonValue.str "2020"), ("field_2", JsonValue.str "u")] =
        Except.ok (replaceInCol [[("id", JsonValue.str "1"), ("title", JsonValue.str "A")]]
          "1" u, u) ∧
      rLookup u "id" = some (JsonValue.str "1") ∧ idOf u = some "1" ∧
      getOp (replaceInCol [[("id", JsonValue.str "1"), ("title", JsonValue.str "A")]]
        "1" u) "1" = Except.ok u) :=
  ⟨(update_preserves_id [[("id", JsonValue.str "1"), ("title", JsonValue.str "A")]] "1"
      [("id", JsonValue.str "1"), ("title", JsonValue.str "A")]
      [("id", JsonValue.str "2020"), ("field_2", JsonValue.str "u")] rfl).1 rfl,
   (update_preserves_id [[("id", JsonValue.str "1"), ("title", JsonValue.str "A")]] "1"
      [("id", JsonValue.str "1"), ("title", JsonValue.str "A")]
      [("id", JsonValue.str "2020"), ("field_2", JsonValue.str "u")] rfl).2 rfl⟩

/-- C4: Create appends exactly one new resource; when the body carries a
string `id` not already used in the collection, that id is honored;
when the `id` field is missing, not a string, or collides with an id
already present, the stored resource receives a generated id that
differs from every id already in the collection. -/
theorem create_id_resolution (col : List Resource) (body : Resource) :
    (createOp col body).1 = col ++ [(createOp col body).2] ∧
    (∀ s, rLookup body "id" = some (JsonValue.str s) → s ∉ usedIds col →
      idOf (createOp col body).2 = some s) ∧
    (((∀ s, rLookup body "id" ≠ some (JsonValue.str s)) ∨
      (∃ s, rLookup body "id" = some (JsonValue.str s) ∧ s ∈ usedIds col)) →
      ∃ g, idOf (createOp col body).2 = some g ∧ g ∉ usedIds col) := by
  refine ⟨rfl, ?_, ?_⟩
  · intro s hs hns
    show idOf (withId body (resolvedCreateId col body)) = some s
    rw [idOf_withId, resolvedCreateId_honored col body s hs hns]
  · intro _
    exact ⟨resolvedCreateId col body, idOf_withId _ _, resolvedCreateId_not_mem col body⟩

/-- Witness for C4: an honored body id "5", and a colliding body id "1"
replaced by a generated id outside the collection. -/
theorem create_id_resolution_witness :
    idOf (createOp [[("id", JsonValue.str "1")]] [("id", JsonValue.str "5")]).2 = some "5" ∧
    ∃ g, idOf (createOp [[("id", JsonValue.str "1")]] [("id", JsonValue.str "1")]).2 = some g ∧
      g ∉ usedIds [[("id", JsonValue.str "1")]] :=
  ⟨(create_id_resolution [[("id", JsonValue.str "1")]] [("id", JsonValue.str "5")]).2.1
      "5" rfl (by decide),
   (create_id_resolution [[("id", JsonValue.str "1")]] [("id", JsonValue.str "1")]).2.2
      (Or.inr ⟨"1", rfl, by decide⟩)⟩

/-- C7: Get, Patch and Delete on an id no resource of the collection
carries all fail with the ResourceNotFound error, mapped to HTTP 404;
in particular Get after a successful Delete of the same id is
NotFound. -/
theorem absent_id_not_found (col : List Resource) (id : String) (body : Resource) :
    (findResource col id = none →
      getOp col id = Except.error StorageError.resourceNotFound ∧
      patchOp col id body = Except.error StorageError.resourceNotFound ∧
      deleteOp col id = Except.error StorageError.resourceNotFound) ∧
    (∀ col2, deleteOp col id = Except.ok col2 →
      getOp col2 id = Except.error StorageError.resourceNotFound) ∧
    statusOf StorageError.resourceNotFound = 404 := by
  refine ⟨?_, ?_, rfl⟩
  · intro h
    refine ⟨?_, ?_, ?_⟩
    · unfold getOp
      rw [h]
    · unfold patchOp
      rw [h]
    · unfold deleteOp
      rw [h]
  · intro col2 hdel
    obtain ⟨r, _, hcol2⟩ := deleteOp_ok_inv col id col2 hdel
    unfold getOp findResource
    rw [hcol2, find?_filter_not]

/-- Witness for C7: Get, Patch and Delete with the unknown id "9" all
yield NotFound, and Get finds nothing after Delete empties the
collection. -/
theorem absent_id_not_found_witness :
    (getOp [[("id", JsonValue.str "1")]] "9" = Except.error StorageError.resourceNotFound ∧
     patchOp [[("id", JsonValue.str "1")]] "9" [("field_2", JsonValue.str "u")] =
       Except.error StorageError.resourceNotFound ∧
     deleteOp [[("id", JsonValue.str "1")]] "9" = Except.error StorageError.resourceNotFound) ∧
    getOp [] "1" = Except.error StorageError.resourceNotFound :=
  ⟨(absent_id_not_found [[("id", JsonValue.str "1")]] "9"
      [("field_2", JsonValue.str "u")]).1 rfl,
   (absent_id_not_found [[("id", JsonValue.str "1")]] "1" []).2.1 [] rfl⟩

/-- C8 counterexample: the claim also asserts that the uniqueness
invariant holds in the initially loaded document, but `load` performs no
id-uniqueness validation: the backing file
`{"books": [{"id":"1"}, {"id":"1"}]}` loads without error into a
collection in which two resources share the id "1". -/
theorem load_admits_duplicate_ids :
    docLookup (loadDocument [("books", JsonValue.arr
        [JsonValue.obj [("id", JsonValue.str "1")],
         JsonValue.obj [("id", JsonValue.str "1")]])]) "books" =
      some (DocValue.collection [[("id", JsonValue.str "1")], [("id", JsonValue.str "1")]]) ∧
    ¬ uniqueIds [[("id", JsonValue.str "1")], [("id", JsonValue.str "1")]] :=
  ⟨rfl, by decide⟩

/-- C8 (amended): within each collection, id uniqueness is preserved by
every Create, Replace, Patch, and Delete — if no two resources share an
id before the operation, none do after.  (The initial load performs no
uniqueness validation, so the invariant holds from startup on only if
the backing file already satisfies it.) -/
theorem unique_ids_preserved (col : List Resource) (h : uniqueIds col) :
    (∀ body, uniqueIds (createOp col body).1) ∧
    (∀ id body col2 u, replaceOp col id body = Except.ok (col2, u) → uniqueIds col2) ∧
    (∀ id body col2 u, patchOp col id body = Except.ok (col2, u) → uniqueIds col2) ∧
    (∀ id col2, deleteOp col id = Except.ok col2 → uniqueIds col2) := by
  refine ⟨?_, ?_, ?_, ?_⟩
  · intro body
    show uniqueIds (col ++ [withId body (resolvedCreateId col body)])
    exact uniqueIds_append_fresh col _ (resolvedCreateId col body) h
      (idOf_withId _ _) (resolvedCreateId_not_mem col body)
  · intro id body col2 u hok
    obtain ⟨r, _, _, hu, hcol2⟩ := replaceOp_ok_inv col id body col2 u hok
    rw [hcol2]
    exact uniqueIds_replaceInCol col id u h (hu ▸ idOf_withId body id)
  · intro id body col2 u hok
    obtain ⟨r, _, _, hu, hcol2⟩ := patchOp_ok_inv col id body col2 u hok
    rw [hcol2]
    exact uniqueIds_replaceInCol col id u h (hu ▸ idOf_withId _ id)
  · intro id col2 hok
    obtain ⟨r, _, hcol2⟩ := deleteOp_ok_inv col id col2 hok
    rw [hcol2]
    exact uniqueIds_filter col _ h

/-- Witness for the amended C8: a concrete unique collection stays
unique after a Create with a colliding body id and after a Delete. -/
theorem unique_ids_preserved_witness :
    uniqueIds (createOp [[("id", JsonValue.str "1")], [("id", JsonValue.str "2")]]
      [("id", JsonValue.str "1"), ("a", JsonValue.null)]).1 ∧
    uniqueIds [[("id", JsonValue.str "2")]] :=
  ⟨(unique_ids_preserved [[("id", JsonValue.str "1")], [("id", JsonValue.str "2")]]
      (by decide)).1 [("id", JsonValue.str "1"), ("a", JsonValue.null)],
   (unique_ids_preserved [[("id", JsonValue.str "1")], [("id", JsonValue.str "2")]]
      (by decide)).2.2.2 "1" [[("id", JsonValue.str "2")]] rfl⟩

/-- C9: the backing file always equals the last acknowledged Document:
a successful mutation serializes the new Document to the file before
returning its result, and a failed one changes neither, so the equation
`file = doc` is established by every success and preserved always. -/
theorem persistence_sync (s : ServerState) (op : Op) :
    (∀ res, (runMutation s op).2 = Except.ok res →
      ((runMutation s op).1).file = ((runMutation s op).1).doc) ∧
    (s.file = s.doc → ((runMutation s op).1).file = ((runMutation s op).1).doc) := by
  unfold runMutation
  cases happ : applyOp s.doc op with
  | error e =>
    constructor
    · intro res hres
      simp at hres
    · intro hfd
      exact hfd
  | ok res =>
    constructor
    · intro _ _
      rfl
    · intro _
      rfl

/-- Witness for C9: a concrete synced state stays synced through a
successful Create and through a failed Delete. -/
theorem persistence_sync_witness :
    ((runMutation (ServerState.mk [("books", DocValue.collection [])]
        [("books", DocValue.collection [])])
      (Op.create "books" [("a", JsonValue.bool true)])).1).file =
    ((runMutation (ServerState.mk [("books", DocValue.collection [])]
        [("books", DocValue.collection [])])
      (Op.create "books" [("a", JsonValue.bool true)])).1).doc ∧
    ((runMutation (ServerState.mk [("books", DocValue.collection [])]
        [("books", DocValue.collection [])])
      (Op.delete "books" "9")).1).file =
    ((runMutation (ServerState.mk [("books", DocValue.collection [])]
        [("books", DocValue.collection [])])
      (Op.delete "books" "9")).1).doc :=
  ⟨(persistence_sync (ServerState.mk [("books", DocValue.collection [])]
      [("books", DocValue.collection [])])
      (Op.create "books" [("a", JsonValue.bool true)])).1
      (some (withId [("a", JsonValue.bool true)] (freshId []))) rfl,
   (persistence_sync (ServerState.mk [("books", DocValue.collection [])]
      [("books", DocValue.collection [])])
      (Op.delete "books" "9")).2 rfl⟩
